import Mathlib

/-
Verification of the roca-stock-moves data-synchronization layer.

The definitions below are a shallow embedding of:
- src/mocks/handlers.ts (the mock API: StockMove model, the fixture data,
  GET /stock-moves, PATCH /stock-moves/:id),
- src/pages/StockMoveDetailPage.tsx (handleSubmit validation,
  patchStockMoveReference, and the optimistic-update mutation callbacks
  onMutate / onError / onSettled over the React Query cache),
- src/auth/AuthContext.tsx (session restore at startup).

The React Query cache is modelled as association lists keyed by the query
keys the pages use: detail entries under key `('stock-move', id)` are keyed
by the id string, list entries under keys starting with `'stock-moves'` are
keyed by an abstract key type κ (the list page uses `('stock-moves', page,
pageSize, ...)`; the mutation callbacks only enumerate them by the
`'stock-moves'` key root, so the key tail is opaque to the code modelled
here). A list entry's data may be `none`, mirroring a query entry whose
data is still `undefined`.

JavaScript string operations are modelled on the character list of a
`String`: `jsTrim` for `String.prototype.trim`, `jsLower` for
`toLowerCase`, `listContainsSub` for `includes`. `length` counts
characters (code points); the JS `length` counts UTF-16 units, which
agrees on all basic-multilingual-plane text such as the fixture data.
Numeric query parameters are taken after the `Number(raw) || default`
coercion of the handler, as integers.
-/

set_option autoImplicit false

namespace RocaStockMoves

/-- The `type` field of a StockMove: the TS union `'IN' | 'OUT' | 'ADJUST'`
(src/mocks/handlers.ts). -/
inductive MoveType where
  | IN
  | OUT
  | ADJUST
deriving DecidableEq, Repr

/-- The string a `MoveType` is represented by at runtime (TS stores the
union member itself as a string). -/
def MoveType.str : MoveType → String
  | .IN => "IN"
  | .OUT => "OUT"
  | .ADJUST => "ADJUST"

/-- The StockMove entity (src/mocks/handlers.ts, `interface StockMove`). -/
structure StockMove where
  id : String
  date : String
  product : String
  warehouse : String
  type : MoveType
  quantity : Int
  reference : String
deriving DecidableEq, Repr

/-- Shape of a GET /stock-moves response and of a cached list-query value
(`StockMovesResponse` in the pages, the response literal in handlers.ts). -/
structure ListResult where
  items : List StockMove
  total : Nat
  page : Int
  pageSize : Int
deriving DecidableEq, Repr

/-- Character-level model of `String.prototype.trim`: strip leading and
trailing whitespace. -/
def trimChars (l : List Char) : List Char :=
  ((l.dropWhile Char.isWhitespace).reverse.dropWhile Char.isWhitespace).reverse

/-- JS `s.trim()`. -/
def jsTrim (s : String) : String := ⟨trimChars s.data⟩

/-- JS `s.toLowerCase()` (character-wise lowering). -/
def jsLower (s : String) : String := ⟨s.data.map Char.toLower⟩

/-- Whether the first list is a prefix of the second, character-wise. -/
def listStartsWith : List Char → List Char → Bool
  | [], _ => true
  | _ :: _, [] => false
  | n :: ns, h :: hs => decide (n = h) && listStartsWith ns hs

/-- JS `hay.includes(needle)`: the needle occurs contiguously in the hay. -/
def listContainsSub (needle : List Char) : List Char → Bool
  | [] => listStartsWith needle []
  | c :: rest => listStartsWith needle (c :: rest) || listContainsSub needle rest

section AssocCacheDefs

variable {κ : Type} {α : Type} [DecidableEq κ]

/-- Read a cache entry: first binding of the key, `none` when absent
(React Query `getQueryData`). -/
def lookupA : List (κ × α) → κ → Option α
  | [], _ => none
  | p :: rest, k => if p.1 = k then some p.2 else lookupA rest k

/-- Write a cache entry: overwrite the key's binding, creating it when
absent (React Query `setQueryData` with a concrete value). -/
def setA (l : List (κ × α)) (k : κ) (v : α) : List (κ × α) :=
  if l.any (fun p => decide (p.1 = k)) then
    l.map (fun p => if p.1 = k then (k, v) else p)
  else
    l ++ [(k, v)]

end AssocCacheDefs

/-- The slice of the React Query cache the detail page's mutation touches:
detail entries (query key `('stock-move', id)`, indexed here by the id) and
list entries (query keys starting with `'stock-moves'`, indexed by an
abstract key type). A list entry whose fetch has not resolved yet has data
`none` (`undefined` in the source). -/
structure Cache (κ : Type) where
  detail : List (String × StockMove)
  lists : List (κ × Option ListResult)
deriving DecidableEq

/-- The context returned by `onMutate` (StockMoveDetailPage.tsx line 124):
the pre-mutation detail snapshot and all pre-mutation list snapshots. -/
structure MutationContext (κ : Type) where
  previousDetail : Option StockMove
  previousLists : List (κ × Option ListResult)
deriving DecidableEq

section MutationDefs

variable {κ : Type} [DecidableEq κ]

/-- One pass of `previousLists.forEach(([key, value]) => ...)` writing
`f value` back under `key` for every snapshot that has data. Entries with
`none` data are skipped: in `onMutate` the loop guards with
`if (!value) return;`, and in `onError` React Query's `setQueryData` with
`undefined` is a no-op. -/
def writeBack (f : ListResult → ListResult)
    (entries : List (κ × Option ListResult))
    (acc : List (κ × Option ListResult)) : List (κ × Option ListResult) :=
  entries.foldl
    (fun a p =>
      match p.2 with
      | none => a
      | some v => setA a p.1 (some (f v)))
    acc

/-- The item rewrite of the optimistic list update (lines 117-119):
`items.map(item => item.id === id ? { ...item, reference } : item)`. -/
def optimisticItems (id reference : String) (items : List StockMove) :
    List StockMove :=
  items.map (fun item =>
    if item.id = id then { item with reference := reference } else item)

/-- The optimistic value a snapshotted list entry is overwritten with
(line 120): same entry, `items` rewritten. -/
def optimisticList (id reference : String) (v : ListResult) : ListResult :=
  { v with items := optimisticItems id reference v.items }

/-- The onMutate callback (StockMoveDetailPage.tsx lines 87-125): snapshot
the detail entry and all list entries, write the optimistic detail value
when a detail snapshot exists, rewrite every snapshotted list entry, and
return the new cache together with the rollback context. -/
def onMutate (c : Cache κ) (id reference : String) :
    Cache κ × MutationContext κ :=
  let previousDetail := lookupA c.detail id
  let previousLists := c.lists
  let detailAfter :=
    match previousDetail with
    | some d => setA c.detail id { d with reference := reference }
    | none => c.detail
  let listsAfter := writeBack (optimisticList id reference) previousLists c.lists
  (⟨detailAfter, listsAfter⟩, ⟨previousDetail, previousLists⟩)

/-- The keys passed to `setQueryData` by the forEach of lines 115-121:
every snapshotted list entry with data is written, whether or not its
`items` contain the target id. -/
def optimisticListWrites (previousLists : List (κ × Option ListResult)) :
    List κ :=
  previousLists.filterMap (fun p =>
    match p.2 with
    | some _ => some p.1
    | none => none)

/-- The cache effect of the onError callback (StockMoveDetailPage.tsx lines
128-142): restore the detail snapshot under the key
`context.previousDetail.id` when one was captured, and write every list
snapshot back under its key. -/
def onError (c : Cache κ) (ctx : MutationContext κ) : Cache κ :=
  let detailAfter :=
    match ctx.previousDetail with
    | some d => setA c.detail d.id d
    | none => c.detail
  let listsAfter := writeBack (fun v => v) ctx.previousLists c.lists
  ⟨detailAfter, listsAfter⟩

/-- Detail-cache well-formedness: each entry under key `('stock-move', id)`
holds a move whose `id` field is that key. Every cache the application
builds satisfies this: detail entries are only written from
GET /stock-moves/:id responses and by the optimistic/rollback writes, all
of which preserve the id. -/
def DetailWellKeyed (c : Cache κ) : Prop :=
  ∀ p ∈ c.detail, p.2.id = p.1

end MutationDefs

/-- One component of a React Query key array, as used by the pages:
strings and numbers. -/
inductive KeyPart where
  | s (v : String)
  | n (v : Int)
deriving DecidableEq, Repr

/-- The detail-page query key `['stock-move', id]`. -/
def detailQueryKey (id : String) : List KeyPart := [.s "stock-move", .s id]

/-- The key root `['stock-moves']` shared by every list query. -/
def stockMovesKeyRoot : List KeyPart := [.s "stock-moves"]

/-- React Query key filtering: a filter key matches every stored key it is
a prefix of. -/
def keyMatches : List KeyPart → List KeyPart → Bool
  | [], _ => true
  | _ :: _, [] => false
  | f :: fs, k :: ks => decide (f = k) && keyMatches fs ks

/-- The staleness effect of `invalidateQueries({queryKey})`: every cached
query whose key matches becomes stale. -/
def invalidateQueries (stale : List KeyPart → Bool) (filterKey : List KeyPart) :
    List KeyPart → Bool :=
  fun key => keyMatches filterKey key || stale key

/-- The onSettled callback (StockMoveDetailPage.tsx lines 156-160): always
invalidate `['stock-move', variables.id]` and then `['stock-moves']`. -/
def onSettled (stale : List KeyPart → Bool) (id : String) :
    List KeyPart → Bool :=
  invalidateQueries (invalidateQueries stale (detailQueryKey id)) stockMovesKeyRoot

/-- Result of the submit handler: either a local validation failure (the
handler sets formError and returns without dispatching) or a dispatched
mutation. -/
inductive SubmitAction where
  | validationError (message : String)
  | mutate (id : String) (reference : String)
deriving DecidableEq, Repr

/-- The local validation message of handleSubmit (line 207). -/
def validationMessage : String :=
  "La referencia debe tener entre 3 y 60 caracteres."

/-- handleSubmit (StockMoveDetailPage.tsx lines 200-212): trim the entered
reference, reject locally when the trimmed length is outside [3, 60],
otherwise dispatch `mutation.mutate({id, reference: trimmed})`. -/
def handleSubmit (dataId reference : String) : SubmitAction :=
  let trimmed := jsTrim reference
  if trimmed.length < 3 ∨ trimmed.length > 60 then
    .validationError validationMessage
  else
    .mutate dataId trimmed

/-- How the gateway call of a dispatched mutation resolves: either the
2xx response body, or a thrown error carrying a message. -/
inductive PatchNetworkOutcome where
  | success (serverMove : StockMove)
  | failure (thrownMessage : String)
deriving DecidableEq, Repr

/-- Observable result of one submit: the cache data, whether the network
call was dispatched, and the form-level error. Settlement invalidation
(staleness marking) is modelled separately by `onSettled`. -/
structure SubmitOutcome (κ : Type) where
  cache : Cache κ
  networkCalled : Bool
  formError : Option String
deriving DecidableEq

/-- One full submit of the reference form: handleSubmit validation, then —
only when validation passes — the React Query mutation lifecycle
(`onMutate`, the network call, and `onError` on failure). On a validation
failure nothing else runs: no network call, no cache write. -/
def submitReference {κ : Type} [DecidableEq κ] (c : Cache κ)
    (dataId reference : String) (outcome : PatchNetworkOutcome) :
    SubmitOutcome κ :=
  match handleSubmit dataId reference with
  | .validationError msg => ⟨c, false, some msg⟩
  | .mutate id trimmed =>
    let r := onMutate c id trimmed
    match outcome with
    | .success _ => ⟨r.1, true, none⟩
    | .failure msg => ⟨onError r.1 r.2, true, some msg⟩

/-- The parsed JSON body of a non-2xx PATCH response, as consumed by
`patchStockMoveReference`: `message` is the body's `message` field when it
is present. -/
structure ErrBody where
  message : Option String
deriving DecidableEq, Repr

/-- JS `response.ok`: status in the 2xx range. -/
def respOk (status : Nat) : Bool := 200 ≤ status && status ≤ 299

/-- The generic fallback of patchStockMoveReference (line 53). -/
def fallbackPatchMessage : String := "Failed to update reference"

/-- The message of the Error thrown at lines 51-55 of
StockMoveDetailPage.tsx: `errorBody?.message ?? 'Failed to update
reference'`, where `errorBody` is `none` when `response.json()` rejected
(absent or unparseable body). -/
def patchThrownMessage (errorBody : Option ErrBody) : String :=
  match errorBody with
  | some b => b.message.getD fallbackPatchMessage
  | none => fallbackPatchMessage

/-- What `patchStockMoveReference` throws for a given response: nothing on
a 2xx status, otherwise an Error whose message is `patchThrownMessage`. -/
def patchCallError (status : Nat) (errorBody : Option ErrBody) : Option String :=
  if respOk status then none else some (patchThrownMessage errorBody)

/-- The onError message handling (lines 144-148): a thrown `Error`
surfaces its own message, anything else surfaces a generic text. -/
def onErrorFormMessage (errMessage : Option String) : String :=
  match errMessage with
  | some m => m
  | none => "Error al actualizar la referencia."

/-- The form-level error the user sees after the PATCH response settles:
`none` on success; on failure, the thrown Error's message as surfaced by
onError. -/
def userVisibleError (status : Nat) (errorBody : Option ErrBody) :
    Option String :=
  match patchCallError status errorBody with
  | some m => some (onErrorFormMessage (some m))
  | none => none

/-- A GET /stock-moves request after parameter coercion: `page` and
`pageSize` are the values of `Number(raw) || default` (integers; the
defaults are 1 and 10), the filters are the raw query strings, absent
filters being the empty string (`?? ''`). -/
structure ListRequest where
  page : Int
  pageSize : Int
  product : String
  warehouse : String
  type : String
deriving DecidableEq, Repr

/-- JS `Array.prototype.slice(start, stop)` with integer arguments:
negative indices count from the end, and both indices are clamped to
`[0, length]`. -/
def jsSlice {α : Type} (l : List α) (start stop : Int) : List α :=
  let len : Int := (l.length : Int)
  let s := if start < 0 then max (len + start) 0 else min start len
  let e := if stop < 0 then max (len + stop) 0 else min stop len
  (l.take e.toNat).drop s.toNat

/-- The sequential filtering of the GET /stock-moves handler
(handlers.ts lines 229-244): product as case-insensitive substring,
warehouse and type as exact equality, each filter skipped when its query
string is empty. -/
def filteredMoves (store : List StockMove) (product warehouse ty : String) :
    List StockMove :=
  let f1 :=
    if product ≠ "" then
      store.filter (fun m =>
        listContainsSub (jsLower product).data (jsLower m.product).data)
    else store
  let f2 :=
    if warehouse ≠ "" then
      f1.filter (fun m => decide (m.warehouse = warehouse))
    else f1
  let f3 :=
    if ty ≠ "" then
      f2.filter (fun m => decide (m.type.str = ty))
    else f2
  f3

/-- The GET /stock-moves handler (handlers.ts lines 218-256): filter, count
the filtered set, slice out the requested page, echo page and pageSize. -/
def getStockMoves (store : List StockMove) (req : ListRequest) : ListResult :=
  let filtered := filteredMoves store req.product req.warehouse req.type
  let total := filtered.length
  let start := (req.page - 1) * req.pageSize
  let itemsPage := jsSlice filtered start (start + req.pageSize)
  ⟨itemsPage, total, req.page, req.pageSize⟩

/-- The filter semantics as the spec states them (spec §6): `product` a
case-insensitive substring match, `warehouse`/`type` exact matches, unset
(empty) filters no-ops — one conjunction, for comparison against the
handler's sequential filtering. -/
def specFilterPred (product warehouse ty : String) (m : StockMove) : Bool :=
  (decide (product = "") ||
      listContainsSub (jsLower product).data (jsLower m.product).data) &&
    (decide (warehouse = "") || decide (m.warehouse = warehouse)) &&
    (decide (ty = "") || decide (m.type.str = ty))

/-- The in-memory fixture data (handlers.ts lines 46-182). -/
def stockMoves : List StockMove := [
  ⟨"1", "2025-01-01", "Producto A", "Bodega Norte", .IN, 100, "Ingreso inicial"⟩,
  ⟨"2", "2025-01-02", "Producto B", "Bodega Sur", .OUT, 20, "Venta cliente X"⟩,
  ⟨"3", "2025-01-03", "Producto C", "Bodega Norte", .ADJUST, -5, "Ajuste inventario"⟩,
  ⟨"4", "2025-01-04", "Producto A", "Bodega Central", .OUT, 15, "Salida a sucursal"⟩,
  ⟨"5", "2025-01-05", "Producto D", "Bodega Norte", .IN, 200, "Compra proveedor Y"⟩,
  ⟨"6", "2025-01-06", "Producto B", "Bodega Sur", .ADJUST, 3, "Reconteo físico"⟩,
  ⟨"7", "2025-01-07", "Producto E", "Bodega Central", .IN, 50, "Ingreso promoción"⟩,
  ⟨"8", "2025-01-08", "Producto C", "Bodega Norte", .OUT, 30, "Salida orden 123"⟩,
  ⟨"9", "2025-01-09", "Producto A", "Bodega Sur", .OUT, 10, "Devolución cliente"⟩,
  ⟨"10", "2025-01-10", "Producto D", "Bodega Central", .IN, 80, "Reposición stock"⟩,
  ⟨"11", "2025-01-11", "Producto E", "Bodega Norte", .OUT, 25, "Transferencia interna"⟩,
  ⟨"12", "2025-01-12", "Producto B", "Bodega Sur", .IN, 60, "Compra urgente"⟩,
  ⟨"13", "2025-01-13", "Producto C", "Bodega Central", .ADJUST, -2, "Pérdida por daño"⟩,
  ⟨"14", "2025-01-14", "Producto A", "Bodega Norte", .IN, 120, "Ingreso campaña"⟩,
  ⟨"15", "2025-01-15", "Producto D", "Bodega Sur", .OUT, 40, "Salida mayorista"⟩]

/-- The 400 message of the PATCH handler (handlers.ts line 294). -/
def referenceLengthMessage : String :=
  "Reference must be between 3 and 60 characters"

/-- The 404 message of the PATCH (and GET-by-id) handler. -/
def notFoundMessage : String := "Stock move not found"

/-- Response and post-request store of one PATCH /stock-moves/:id call:
HTTP status, error-body message (for 400/404), response move (for 200),
and the `stockMoves` array after the handler ran. -/
structure PatchResult where
  status : Nat
  message : Option String
  move : Option StockMove
  store : List StockMove
deriving DecidableEq, Repr

/-- The in-place update `stockMoves[moveIndex] = {...stockMoves[moveIndex],
reference}` at the index found by `findIndex`: replace the first move with
the given id. -/
def replaceFirstById : List StockMove → String → String → List StockMove
  | [], _, _ => []
  | m :: rest, id, reference =>
    if m.id = id then { m with reference := reference } :: rest
    else m :: replaceFirstById rest id reference

/-- The PATCH /stock-moves/:id handler (handlers.ts lines 286-313): default
the body's reference to the empty string, reject length outside [3, 60]
with 400, then look the id up, reject a missing id with 404, otherwise
store and return the updated move. -/
def patchStockMove (store : List StockMove) (id : String)
    (bodyReference : Option String) : PatchResult :=
  let reference := bodyReference.getD ""
  if reference.length < 3 ∨ reference.length > 60 then
    ⟨400, some referenceLengthMessage, none, store⟩
  else
    match store.find? (fun m => decide (m.id = id)) with
    | none => ⟨404, some notFoundMessage, none, store⟩
    | some m =>
      ⟨200, none, some { m with reference := reference },
        replaceFirstById store id reference⟩

/-- The localStorage key of the session token (AuthContext.tsx). -/
def authTokenStorageKey : String := "auth_token"

/-- The session state machine of spec §4.4, read off the AuthContext
token: a non-null token means authenticated. -/
inductive SessionState where
  | anonymous
  | authenticated (token : String)
deriving DecidableEq, Repr

/-- What a fresh application start produces for the auth context. -/
structure AuthStartup where
  token : Option String
  requestsIssued : List String
deriving DecidableEq, Repr

/-- AuthProvider initialization (AuthContext.tsx lines 42-44): the initial
token state reads `localStorage.getItem('auth_token')` directly; the
initializer performs no fetch, hence the empty request list. -/
def authProviderStart (storage : String → Option String) : AuthStartup :=
  ⟨storage authTokenStorageKey, []⟩

/-- The session state a given token value denotes (`token: string | null`
in AuthContextValue). -/
def sessionStateOf : Option String → SessionState
  | some t => .authenticated t
  | none => .anonymous

instance {κ : Type} [DecidableEq κ] (c : Cache κ) : Decidable (DetailWellKeyed c) :=
  inferInstanceAs (Decidable (∀ p ∈ c.detail, p.2.id = p.1))

section AssocCacheLemmas

variable {κ : Type} {α : Type} [DecidableEq κ]

@[simp] theorem lookupA_nil (k : κ) : lookupA ([] : List (κ × α)) k = none := rfl

@[simp] theorem lookupA_cons (p : κ × α) (rest : List (κ × α)) (k : κ) :
    lookupA (p :: rest) k = if p.1 = k then some p.2 else lookupA rest k := rfl

theorem lookupA_append_of_not_mem {l₁ l₂ : List (κ × α)} {k : κ}
    (h : k ∉ l₁.map Prod.fst) : lookupA (l₁ ++ l₂) k = lookupA l₂ k := by
  induction l₁ with
  | nil => simp
  | cons p rest ih =>
    simp only [List.map_cons, List.mem_cons] at h
    push_neg at h
    rw [List.cons_append, lookupA_cons, if_neg (fun hh => h.1 hh.symm), ih h.2]

theorem any_key_eq_mem {l : List (κ × α)} {k : κ} :
    l.any (fun p => decide (p.1 = k)) = true ↔ k ∈ l.map Prod.fst := by
  rw [List.any_eq_true, List.mem_map]
  constructor
  · rintro ⟨p, hp, hq⟩
    exact ⟨p, hp, of_decide_eq_true hq⟩
  · rintro ⟨p, hp, hq⟩
    exact ⟨p, hp, decide_eq_true hq⟩

theorem lookupA_map_update {l : List (κ × α)} {k : κ} {v : α} :
    lookupA (l.map (fun p => if p.1 = k then (k, v) else p)) k =
      if k ∈ l.map Prod.fst then some v else none := by
  induction l with
  | nil => simp
  | cons p rest ih =>
    by_cases hp : p.1 = k
    · simp [hp, lookupA]
    · have hk : ¬k = p.1 := fun hh => hp hh.symm
      by_cases hm : k ∈ List.map Prod.fst rest <;>
        simp [hp, lookupA, ih, List.mem_cons, hk, hm]

theorem lookupA_map_update_other {l : List (κ × α)} {k k' : κ} {v : α}
    (hne : k' ≠ k) :
    lookupA (l.map (fun p => if p.1 = k then (k, v) else p)) k' = lookupA l k' := by
  induction l with
  | nil => simp
  | cons p rest ih =>
    by_cases hp : p.1 = k
    · have h1 : ¬k = k' := fun hh => hne hh.symm
      have h2 : ¬p.1 = k' := fun hh => hne (hh ▸ hp.symm ▸ rfl)
      rw [List.map_cons, if_pos hp, lookupA_cons, lookupA_cons]
      simp only [h1, h2, if_false, ih]
    · rw [List.map_cons, if_neg hp, lookupA_cons, lookupA_cons, ih]

theorem lookupA_append_single_other {l : List (κ × α)} {k k' : κ} {v : α}
    (hne : k' ≠ k) : lookupA (l ++ [(k, v)]) k' = lookupA l k' := by
  induction l with
  | nil => simp [lookupA, Ne.symm hne]
  | cons p rest ih =>
    by_cases hp : p.1 = k'
    · simp [lookupA, hp]
    · simp [lookupA, hp, ih]

theorem lookupA_setA_self (l : List (κ × α)) (k : κ) (v : α) :
    lookupA (setA l k v) k = some v := by
  unfold setA
  by_cases h : l.any (fun p => decide (p.1 = k)) = true
  · rw [if_pos h, lookupA_map_update, if_pos (any_key_eq_mem.mp h)]
  · rw [if_neg h]
    have hmem : k ∉ l.map Prod.fst := fun hm => h (any_key_eq_mem.mpr hm)
    rw [lookupA_append_of_not_mem hmem]
    simp [lookupA]

theorem lookupA_setA_other (l : List (κ × α)) (k k' : κ) (v : α) (hne : k' ≠ k) :
    lookupA (setA l k v) k' = lookupA l k' := by
  unfold setA
  by_cases h : l.any (fun p => decide (p.1 = k)) = true
  · rw [if_pos h, lookupA_map_update_other hne]
  · rw [if_neg h, lookupA_append_single_other hne]

theorem setA_map_fst_of_mem {l : List (κ × α)} {k : κ} (v : α)
    (h : k ∈ l.map Prod.fst) : (setA l k v).map Prod.fst = l.map Prod.fst := by
  unfold setA
  rw [if_pos (any_key_eq_mem.mpr h), List.map_map]
  apply List.map_congr_left
  intro p _
  by_cases hp : p.1 = k <;> simp [hp]

theorem lookupA_mem {l : List (κ × α)} {k : κ} {v : α}
    (h : lookupA l k = some v) : (k, v) ∈ l := by
  induction l with
  | nil => simp [lookupA] at h
  | cons p rest ih =>
    rw [lookupA_cons] at h
    by_cases hp : p.1 = k
    · rw [if_pos hp] at h
      have hv : p.2 = v := Option.some.inj h
      have hpk : p = (k, v) := Prod.ext hp hv
      rw [← hpk]
      exact List.mem_cons_self p rest
    · right
      exact ih (by rwa [if_neg hp] at h)

theorem lookupA_none_of_not_mem {l : List (κ × α)} {k : κ}
    (h : k ∉ l.map Prod.fst) : lookupA l k = none := by
  induction l with
  | nil => rfl
  | cons p rest ih =>
    simp only [List.map_cons, List.mem_cons] at h
    push_neg at h
    rw [lookupA_cons, if_neg (fun hh => h.1 hh.symm), ih h.2]

theorem lookupA_of_mem_nodup {l : List (κ × α)} {k : κ} {v : α}
    (hnd : (l.map Prod.fst).Nodup) (hmem : (k, v) ∈ l) : lookupA l k = some v := by
  induction l with
  | nil => simp at hmem
  | cons p rest ih =>
    rw [List.map_cons, List.nodup_cons] at hnd
    rcases List.mem_cons.mp hmem with h | h
    · rw [← h, lookupA_cons, if_pos rfl]
    · have hk : p.1 ≠ k := by
        intro hh
        exact hnd.1 (hh ▸ List.mem_map.mpr ⟨(k, v), h, rfl⟩)
      rw [lookupA_cons, if_neg hk]
      exact ih hnd.2 h

theorem map_update_of_not_mem {l : List (κ × α)} {k : κ} {v : α}
    (h : k ∉ l.map Prod.fst) :
    l.map (fun p => if p.1 = k then (k, v) else p) = l := by
  induction l with
  | nil => rfl
  | cons p rest ih =>
    simp only [List.map_cons, List.mem_cons] at h
    push_neg at h
    rw [List.map_cons, if_neg (fun hh => h.1 hh.symm), ih h.2]

theorem setA_setA (l : List (κ × α)) (k : κ) (v w : α) :
    setA (setA l k v) k w = setA l k w := by
  by_cases h : k ∈ l.map Prod.fst
  · have h1 : setA l k v = l.map (fun p => if p.1 = k then (k, v) else p) := by
      rw [setA, if_pos (any_key_eq_mem.mpr h)]
    have h2 : setA l k w = l.map (fun p => if p.1 = k then (k, w) else p) := by
      rw [setA, if_pos (any_key_eq_mem.mpr h)]
    have hk : k ∈ (setA l k v).map Prod.fst := by
      rw [setA_map_fst_of_mem _ h]
      exact h
    rw [setA, if_pos (any_key_eq_mem.mpr hk), h1, h2, List.map_map]
    apply List.map_congr_left
    intro p _
    by_cases hp : p.1 = k <;> simp [hp]
  · have h1 : setA l k v = l ++ [(k, v)] := by
      rw [setA, if_neg (fun ha => h (any_key_eq_mem.mp ha))]
    have h2 : setA l k w = l ++ [(k, w)] := by
      rw [setA, if_neg (fun ha => h (any_key_eq_mem.mp ha))]
    have hk : k ∈ (l ++ [(k, v)]).map Prod.fst := by
      simp
    rw [h1, setA, if_pos (any_key_eq_mem.mpr hk), h2, List.map_append]
    rw [map_update_of_not_mem h]
    simp

theorem setA_eq_self {l : List (κ × α)} {k : κ} {v : α}
    (hnd : (l.map Prod.fst).Nodup) (h : lookupA l k = some v) : setA l k v = l := by
  have hk : k ∈ l.map Prod.fst := List.mem_map.mpr ⟨(k, v), lookupA_mem h, rfl⟩
  rw [setA, if_pos (any_key_eq_mem.mpr hk)]
  have hcongr : ∀ p ∈ l, (if p.1 = k then (k, v) else p) = p := by
    intro p hp
    by_cases hpk : p.1 = k
    · have hlv : lookupA l p.1 = some p.2 := lookupA_of_mem_nodup hnd (by
        cases p
        exact hp)
      rw [hpk, h] at hlv
      have hv : v = p.2 := Option.some.inj hlv
      rw [if_pos hpk]
      exact Prod.ext hpk.symm hv
    · rw [if_neg hpk]
  rw [List.map_congr_left hcongr]
  simp

theorem assoc_ext {l₁ l₂ : List (κ × α)}
    (hkeys : l₁.map Prod.fst = l₂.map Prod.fst)
    (hnd : (l₁.map Prod.fst).Nodup)
    (hlook : ∀ k, lookupA l₁ k = lookupA l₂ k) : l₁ = l₂ := by
  induction l₁ generalizing l₂ with
  | nil =>
    cases l₂ with
    | nil => rfl
    | cons q t₂ => simp at hkeys
  | cons p t₁ ih =>
    cases l₂ with
    | nil => simp at hkeys
    | cons q t₂ =>
      simp only [List.map_cons, List.cons.injEq] at hkeys
      rw [List.map_cons, List.nodup_cons] at hnd
      have hhead : p = q := by
        have hl := hlook p.1
        rw [lookupA_cons, lookupA_cons, if_pos rfl, if_pos hkeys.1.symm] at hl
        exact Prod.ext hkeys.1 (Option.some.inj hl)
      have htail : ∀ k, lookupA t₁ k = lookupA t₂ k := by
        intro k
        by_cases hk : p.1 = k
        · have h1 : lookupA t₁ k = none :=
            lookupA_none_of_not_mem (hk ▸ hnd.1)
          have h2 : lookupA t₂ k = none :=
            lookupA_none_of_not_mem (hk ▸ hkeys.2 ▸ hnd.1)
          rw [h1, h2]
        · have hl := hlook k
          rwa [lookupA_cons, lookupA_cons, if_neg hk,
            if_neg (hkeys.1 ▸ hk)] at hl
      exact hhead ▸ ih hkeys.2 hnd.2 htail ▸ rfl

end AssocCacheLemmas

section MutationLemmas

variable {κ : Type} [DecidableEq κ]

theorem lookupA_writeBack (f : ListResult → ListResult)
    (entries : List (κ × Option ListResult))
    (hnd : (entries.map Prod.fst).Nodup) :
    ∀ (acc : List (κ × Option ListResult)) (k : κ),
      lookupA (writeBack f entries acc) k =
        match lookupA entries k with
        | some (some v) => some (some (f v))
        | some none => lookupA acc k
        | none => lookupA acc k := by
  induction entries with
  | nil =>
    intro acc k
    simp [writeBack, lookupA]
  | cons p rest ih =>
    intro acc k
    rw [List.map_cons, List.nodup_cons] at hnd
    have hstep : writeBack f (p :: rest) acc =
        writeBack f rest
          (match p.2 with
           | none => acc
           | some v => setA acc p.1 (some (f v))) := by
      cases hp2 : p.2 <;> simp [writeBack, hp2]
    rw [hstep, ih hnd.2]
    by_cases hk : p.1 = k
    · subst hk
      have hnr : lookupA rest p.1 = none :=
        lookupA_none_of_not_mem hnd.1
      rw [lookupA_cons, if_pos rfl, hnr]
      cases hp2 : p.2 with
      | none => rfl
      | some v => exact lookupA_setA_self acc p.1 (some (f v))
    · rw [lookupA_cons, if_neg hk]
      cases hp2 : p.2 with
      | none => rfl
      | some v =>
        have hother := lookupA_setA_other acc p.1 k (some (f v))
          (fun hh => hk hh.symm)
        cases hr : lookupA rest k with
        | none => rw [hother]
        | some o => cases o <;> rw [hother]

theorem writeBack_map_fst (f : ListResult → ListResult)
    (entries : List (κ × Option ListResult)) :
    ∀ (acc : List (κ × Option ListResult)),
      (∀ x ∈ entries.map Prod.fst, x ∈ acc.map Prod.fst) →
      (writeBack f entries acc).map Prod.fst = acc.map Prod.fst := by
  induction entries with
  | nil =>
    intro acc _
    simp [writeBack]
  | cons p rest ih =>
    intro acc hsub
    have hstep : writeBack f (p :: rest) acc =
        writeBack f rest
          (match p.2 with
           | none => acc
           | some v => setA acc p.1 (some (f v))) := by
      cases hp2 : p.2 <;> simp [writeBack, hp2]
    rw [hstep]
    have hp1 : p.1 ∈ acc.map Prod.fst :=
      hsub p.1 (by simp)
    cases hp2 : p.2 with
    | none =>
      exact ih acc (fun x hx => hsub x (by simp [hx]))
    | some v =>
      have hkeys := setA_map_fst_of_mem (l := acc) (some (f v)) hp1
      rw [ih (setA acc p.1 (some (f v)))
        (fun x hx => hkeys ▸ hsub x (by simp [hx])), hkeys]

theorem onMutate_fst_detail (c : Cache κ) (id reference : String) :
    ((onMutate c id reference).1).detail =
      match lookupA c.detail id with
      | some d => setA c.detail id { d with reference := reference }
      | none => c.detail := rfl

theorem onMutate_fst_lists (c : Cache κ) (id reference : String) :
    ((onMutate c id reference).1).lists =
      writeBack (optimisticList id reference) c.lists c.lists := rfl

theorem onMutate_snd (c : Cache κ) (id reference : String) :
    (onMutate c id reference).2 = ⟨lookupA c.detail id, c.lists⟩ := rfl

theorem onError_detail (c : Cache κ) (ctx : MutationContext κ) :
    (onError c ctx).detail =
      match ctx.previousDetail with
      | some d => setA c.detail d.id d
      | none => c.detail := rfl

theorem onError_lists (c : Cache κ) (ctx : MutationContext κ) :
    (onError c ctx).lists = writeBack (fun v => v) ctx.previousLists c.lists := rfl

end MutationLemmas

theorem filteredMoves_eq_spec (store : List StockMove) (p w t : String) :
    filteredMoves store p w t = store.filter (specFilterPred p w t) := by
  unfold filteredMoves specFilterPred
  by_cases hp : p = "" <;> by_cases hw : w = "" <;> by_cases ht : t = "" <;>
    simp [hp, hw, ht, List.filter_filter, Bool.and_assoc, Bool.and_comm,
      Bool.and_left_comm]

theorem jsSlice_length_le {α : Type} (l : List α) (start n : Int) (hn : 0 ≤ n) :
    ((jsSlice l start (start + n)).length : Int) ≤ n := by
  unfold jsSlice
  simp only [List.length_drop, List.length_take]
  split_ifs <;> omega

/-- C5: for every patch mutation, whether its network call succeeds or
fails, the settlement step invalidates the detail cache key for the target
id and every list-query cache key (every key starting with the
`'stock-moves'` root), so subsequent reads refetch from the server. -/
theorem settlement_invalidates_all (stale : List KeyPart → Bool) (id : String)
    (tail : List KeyPart) :
    onSettled stale id (detailQueryKey id) = true ∧
      onSettled stale id (KeyPart.s "stock-moves" :: tail) = true := by
  constructor
  · simp [onSettled, invalidateQueries, detailQueryKey, stockMovesKeyRoot,
      keyMatches]
  · simp [onSettled, invalidateQueries, detailQueryKey, stockMovesKeyRoot,
      keyMatches]

/-- C9: a fresh application start with a stored auth token initializes the
session state to authenticated with exactly that token, without issuing
any network call; with no stored token the initial state is anonymous. -/
theorem session_restore (storage : String → Option String) :
    (authProviderStart storage).requestsIssued = [] ∧
    (∀ t, storage authTokenStorageKey = some t →
      sessionStateOf (authProviderStart storage).token =
        SessionState.authenticated t) ∧
    (storage authTokenStorageKey = none →
      sessionStateOf (authProviderStart storage).token =
        SessionState.anonymous) := by
  refine ⟨rfl, ?_, ?_⟩
  · intro t ht
    simp [authProviderStart, sessionStateOf, ht]
  · intro ht
    simp [authProviderStart, sessionStateOf, ht]

/-- Witness for C9 at a concrete storage with and without a token. -/
theorem session_restore_witness :
    sessionStateOf (authProviderStart (fun k =>
      if k = "auth_token" then some "fake-token-123" else none)).token =
        SessionState.authenticated "fake-token-123" ∧
    sessionStateOf (authProviderStart (fun _ => none)).token =
      SessionState.anonymous :=
  ⟨(session_restore _).2.1 "fake-token-123" (by decide),
    (session_restore _).2.2 rfl⟩

/-- C4: a submitted reference whose trimmed length is below 3 or above 60
is rejected locally — form error set, no network call, cache untouched —
while a trimmed length in [3, 60] always dispatches the mutation with the
trimmed value. -/
theorem validation_gate {κ : Type} [DecidableEq κ] (c : Cache κ)
    (dataId reference : String) (outcome : PatchNetworkOutcome) :
    ((jsTrim reference).length < 3 ∨ (jsTrim reference).length > 60 →
      submitReference c dataId reference outcome =
        ⟨c, false, some validationMessage⟩) ∧
    (3 ≤ (jsTrim reference).length ∧ (jsTrim reference).length ≤ 60 →
      (submitReference c dataId reference outcome).networkCalled = true ∧
      handleSubmit dataId reference =
        SubmitAction.mutate dataId (jsTrim reference)) := by
  constructor
  · intro h
    simp [submitReference, handleSubmit, h]
  · intro h
    have hno : ¬((jsTrim reference).length < 3 ∨ (jsTrim reference).length > 60) := by
      push_neg
      omega
    constructor
    · cases outcome <;> simp [submitReference, handleSubmit, hno]
    · simp [handleSubmit, hno]

/-- Witness for C4: length 2 is rejected with no dispatch, length 3
proceeds with the trimmed value. -/
theorem validation_gate_witness :
    submitReference (κ := Nat) ⟨[], []⟩ "1" " ab " (.failure "boom") =
      ⟨⟨[], []⟩, false, some validationMessage⟩ ∧
    ((submitReference (κ := Nat) ⟨[], []⟩ "1" " ABC " (.failure "boom")).networkCalled = true ∧
      handleSubmit "1" " ABC " = SubmitAction.mutate "1" (jsTrim " ABC ")) :=
  ⟨(validation_gate ⟨[], []⟩ "1" " ab " (.failure "boom")).1 (by decide),
    (validation_gate ⟨[], []⟩ "1" " ABC " (.failure "boom")).2 (by decide)⟩

/-- C6: for a failed patch request, a JSON error body carrying a message
field surfaces exactly that message to the user, and an absent or
unparseable body surfaces the generic fallback. -/
theorem patch_error_message_selection (status : Nat) (errorBody : Option ErrBody)
    (h : respOk status = false) :
    (∀ m, errorBody = some ⟨some m⟩ →
      userVisibleError status errorBody = some m) ∧
    (errorBody = none →
      userVisibleError status errorBody = some fallbackPatchMessage) := by
  constructor
  · intro m hm
    simp [userVisibleError, patchCallError, h, patchThrownMessage,
      onErrorFormMessage, hm]
  · intro hb
    simp [userVisibleError, patchCallError, h, patchThrownMessage,
      onErrorFormMessage, hb]

/-- Witness for C6 at a 404 with a server message and a 400 with an
unparseable body. -/
theorem patch_error_message_selection_witness :
    userVisibleError 404 (some ⟨some "Stock move not found"⟩) =
      some "Stock move not found" ∧
    userVisibleError 400 none = some fallbackPatchMessage :=
  ⟨(patch_error_message_selection 404 _ (by decide)).1 "Stock move not found" rfl,
    (patch_error_message_selection 400 none (by decide)).2 rfl⟩

/-- C8: a PATCH with an existing id and a reference of length in [3, 60]
answers 200 with the stored move updated only in its reference; an invalid
length answers 400 with a message; a missing id answers 404 with a
message. -/
theorem patch_endpoint_contract (store : List StockMove) (id : String)
    (bodyReference : Option String) :
    (∀ m, 3 ≤ (bodyReference.getD "").length →
      (bodyReference.getD "").length ≤ 60 →
      store.find? (fun mv => decide (mv.id = id)) = some m →
      patchStockMove store id bodyReference =
        ⟨200, none, some { m with reference := bodyReference.getD "" },
          replaceFirstById store id (bodyReference.getD "")⟩) ∧
    ((bodyReference.getD "").length < 3 ∨ (bodyReference.getD "").length > 60 →
      patchStockMove store id bodyReference =
        ⟨400, some referenceLengthMessage, none, store⟩) ∧
    (3 ≤ (bodyReference.getD "").length →
      (bodyReference.getD "").length ≤ 60 →
      store.find? (fun mv => decide (mv.id = id)) = none →
      patchStockMove store id bodyReference =
        ⟨404, some notFoundMessage, none, store⟩) := by
  refine ⟨?_, ?_, ?_⟩
  · intro m h3 h60 hfind
    have hno : ¬((bodyReference.getD "").length < 3 ∨
        (bodyReference.getD "").length > 60) := by omega
    simp [patchStockMove, hno, hfind]
  · intro h
    simp [patchStockMove, h]
  · intro h3 h60 hfind
    have hno : ¬((bodyReference.getD "").length < 3 ∨
        (bodyReference.getD "").length > 60) := by omega
    simp [patchStockMove, hno, hfind]

/-- Witness for C8 on the fixture: a valid update of id 1, a 400 for a
missing body field, and a 404 for an unknown id. -/
theorem patch_endpoint_contract_witness :
    patchStockMove stockMoves "1" (some "ABC") =
      ⟨200, none,
        some ⟨"1", "2025-01-01", "Producto A", "Bodega Norte", .IN, 100, "ABC"⟩,
        replaceFirstById stockMoves "1" "ABC"⟩ ∧
    patchStockMove stockMoves "1" none =
      ⟨400, some referenceLengthMessage, none, stockMoves⟩ ∧
    patchStockMove stockMoves "999" (some "ABC") =
      ⟨404, some notFoundMessage, none, stockMoves⟩ :=
  ⟨(patch_endpoint_contract stockMoves "1" (some "ABC")).1
      ⟨"1", "2025-01-01", "Producto A", "Bodega Norte", .IN, 100, "Ingreso inicial"⟩
      (by decide) (by decide) (by decide),
    (patch_endpoint_contract stockMoves "1" none).2.1 (by decide),
    (patch_endpoint_contract stockMoves "999" (some "ABC")).2.2
      (by decide) (by decide) (by decide)⟩

/-- C10: the PATCH handler checks reference length before id existence —
an out-of-range reference (the body field defaulting to the empty string)
answers 400 regardless of the id, 404 arises only for a valid-length
reference with an unknown id, and both error paths leave the store
unchanged. -/
theorem patch_length_check_precedes_existence (store : List StockMove)
    (id : String) (bodyReference : Option String) :
    ((bodyReference.getD "").length < 3 ∨ (bodyReference.getD "").length > 60 →
      patchStockMove store id bodyReference =
        ⟨400, some referenceLengthMessage, none, store⟩) ∧
    (3 ≤ (bodyReference.getD "").length →
      (bodyReference.getD "").length ≤ 60 →
      store.find? (fun mv => decide (mv.id = id)) = none →
      patchStockMove store id bodyReference =
        ⟨404, some notFoundMessage, none, store⟩) := by
  constructor
  · intro h
    simp [patchStockMove, h]
  · intro h3 h60 hfind
    have hno : ¬((bodyReference.getD "").length < 3 ∨
        (bodyReference.getD "").length > 60) := by omega
    simp [patchStockMove, hno, hfind]

/-- Witness for C10: id 999 is absent from the fixture, yet a 1-character
reference still answers 400 (not 404) with the store untouched, while a
valid-length reference on the same id answers 404. -/
theorem patch_length_check_precedes_existence_witness :
    stockMoves.find? (fun mv => decide (mv.id = "999")) = none ∧
    patchStockMove stockMoves "999" (some "x") =
      ⟨400, some referenceLengthMessage, none, stockMoves⟩ ∧
    patchStockMove stockMoves "999" (some "XYZ") =
      ⟨404, some notFoundMessage, none, stockMoves⟩ :=
  ⟨by decide,
    (patch_length_check_precedes_existence stockMoves "999" (some "x")).1
      (by decide),
    (patch_length_check_precedes_existence stockMoves "999" (some "XYZ")).2
      (by decide) (by decide) (by decide)⟩

/-- C7 (amended): GET /stock-moves filters by product as a
case-insensitive substring and by warehouse/type as exact equality with
unset filters as no-ops, its total is the filtered count independent of
page and pageSize, its items are a slice of the filtered list — and
whenever the coerced pageSize is nonnegative, at most pageSize items are
returned (a negative pageSize, reachable through the query string, breaks
the bound). -/
theorem list_endpoint_contract (store : List StockMove) (req : ListRequest)
    (p2 s2 : Int) :
    (getStockMoves store req).total =
      (store.filter (specFilterPred req.product req.warehouse req.type)).length ∧
    (getStockMoves store { req with page := p2, pageSize := s2 }).total =
      (getStockMoves store req).total ∧
    (getStockMoves store req).items =
      jsSlice (store.filter (specFilterPred req.product req.warehouse req.type))
        ((req.page - 1) * req.pageSize)
        ((req.page - 1) * req.pageSize + req.pageSize) ∧
    (0 ≤ req.pageSize →
      ((getStockMoves store req).items.length : Int) ≤ req.pageSize) := by
  have hf := filteredMoves_eq_spec store req.product req.warehouse req.type
  refine ⟨?_, ?_, ?_, ?_⟩
  · simp [getStockMoves, hf]
  · simp [getStockMoves]
  · simp [getStockMoves, hf]
  · intro h
    have hlen := jsSlice_length_le
      (filteredMoves store req.product req.warehouse req.type)
      ((req.page - 1) * req.pageSize) req.pageSize h
    simpa [getStockMoves] using hlen

/-- Witness for C7 on the fixture with the warehouse filter set. -/
theorem list_endpoint_contract_witness :
    (getStockMoves stockMoves ⟨1, 10, "", "Bodega Norte", ""⟩).total =
      (stockMoves.filter (specFilterPred "" "Bodega Norte" "")).length ∧
    ((getStockMoves stockMoves ⟨1, 10, "", "Bodega Norte", ""⟩).items.length :
      Int) ≤ 10 :=
  ⟨(list_endpoint_contract stockMoves ⟨1, 10, "", "Bodega Norte", ""⟩ 2 5).1,
    (list_endpoint_contract stockMoves ⟨1, 10, "", "Bodega Norte", ""⟩ 2 5).2.2.2
      (by decide)⟩

/-- Counterexample to C7 as stated: at page 1 with the coerced pageSize -1
(query `?pageSize=-1`, kept by `Number(raw) || 10`), the handler returns 14
of the 15 fixture rows, so `items.length <= pageSize` fails. -/
theorem list_endpoint_pageSize_cex :
    ¬(((getStockMoves stockMoves ⟨1, -1, "", "", ""⟩).items.length : Int) ≤
      (getStockMoves stockMoves ⟨1, -1, "", "", ""⟩).pageSize) := by decide

/-- C2 (amended): when the detail cache held an entry for the target id
before the mutation, the optimistic apply rewrites that entry's reference
to the submitted value immediately (before the network call resolves). -/
theorem optimistic_detail_visibility {κ : Type} [DecidableEq κ] (c : Cache κ)
    (id reference : String) (d : StockMove)
    (h : lookupA c.detail id = some d) :
    lookupA ((onMutate c id reference).1).detail id =
      some { d with reference := reference } := by
  rw [onMutate_fst_detail, h]
  exact lookupA_setA_self _ _ _

/-- Witness for C2 at a cache holding fixture move 1. -/
theorem optimistic_detail_visibility_witness :
    lookupA ((onMutate (κ := Nat)
        ⟨[("1", ⟨"1", "2025-01-01", "Producto A", "Bodega Norte", .IN, 100,
          "Ingreso inicial"⟩)], []⟩ "1" "ABC").1).detail "1" =
      some ⟨"1", "2025-01-01", "Producto A", "Bodega Norte", .IN, 100, "ABC"⟩ :=
  optimistic_detail_visibility _ "1" "ABC"
    ⟨"1", "2025-01-01", "Producto A", "Bodega Norte", .IN, 100,
      "Ingreso inicial"⟩ (by decide)

/-- Counterexample to C2 as stated unconditionally: with no prior detail
snapshot (empty cache), the optimistic apply writes nothing, so no detail
entry carries the submitted reference afterwards. -/
theorem optimistic_detail_visibility_cex :
    (lookupA ((onMutate (κ := Nat) ⟨[], []⟩ "1" "ABC").1).detail "1").map
      StockMove.reference ≠ some "ABC" := by decide

/-- C3 (amended): the optimistic apply rewrites, in every cached list
entry, exactly the elements whose id is the target — their reference
becomes the submitted value, all other fields and elements stay — and an
entry with no matching element keeps its value unchanged (though the
forEach still stores an equal value back, see the counterexample). -/
theorem optimistic_list_propagation {κ : Type} [DecidableEq κ] (c : Cache κ)
    (id reference : String) (k : κ) (v : ListResult)
    (hnd : (c.lists.map Prod.fst).Nodup)
    (hmem : (k, some v) ∈ c.lists) :
    lookupA ((onMutate c id reference).1).lists k =
      some (some (optimisticList id reference v)) ∧
    ((∀ it ∈ v.items, it.id ≠ id) →
      lookupA ((onMutate c id reference).1).lists k = some (some v)) := by
  have hlook : lookupA c.lists k = some (some v) := lookupA_of_mem_nodup hnd hmem
  have hmain : lookupA ((onMutate c id reference).1).lists k =
      some (some (optimisticList id reference v)) := by
    rw [onMutate_fst_lists, lookupA_writeBack _ _ hnd, hlook]
  refine ⟨hmain, fun hno => ?_⟩
  rw [hmain]
  have hitems : optimisticItems id reference v.items = v.items := by
    unfold optimisticItems
    have hcongr : ∀ it ∈ v.items,
        (if it.id = id then { it with reference := reference } else it) = it := by
      intro it hit
      rw [if_neg (hno it hit)]
    rw [List.map_congr_left hcongr]
    simp
  unfold optimisticList
  rw [hitems]

/-- Witness for C3 at a cache with one list entry containing the target id
and one without. -/
theorem optimistic_list_propagation_witness :
    lookupA ((onMutate (κ := Nat)
        ⟨[], [(0, some ⟨[⟨"1", "2025-01-01", "Producto A", "Bodega Norte",
            .IN, 100, "Ingreso inicial"⟩], 1, 1, 10⟩),
          (1, some ⟨[⟨"2", "2025-01-02", "Producto B", "Bodega Sur", .OUT, 20,
            "Venta cliente X"⟩], 1, 1, 10⟩)]⟩ "1" "ABC").1).lists 0 =
      some (some (optimisticList "1" "ABC"
        ⟨[⟨"1", "2025-01-01", "Producto A", "Bodega Norte", .IN, 100,
          "Ingreso inicial"⟩], 1, 1, 10⟩)) ∧
    lookupA ((onMutate (κ := Nat)
        ⟨[], [(0, some ⟨[⟨"1", "2025-01-01", "Producto A", "Bodega Norte",
            .IN, 100, "Ingreso inicial"⟩], 1, 1, 10⟩),
          (1, some ⟨[⟨"2", "2025-01-02", "Producto B", "Bodega Sur", .OUT, 20,
            "Venta cliente X"⟩], 1, 1, 10⟩)]⟩ "1" "ABC").1).lists 1 =
      some (some ⟨[⟨"2", "2025-01-02", "Producto B", "Bodega Sur", .OUT, 20,
        "Venta cliente X"⟩], 1, 1, 10⟩) :=
  ⟨(optimistic_list_propagation _ "1" "ABC" 0
      ⟨[⟨"1", "2025-01-01", "Producto A", "Bodega Norte", .IN, 100,
        "Ingreso inicial"⟩], 1, 1, 10⟩ (by decide) (by decide)).1,
    (optimistic_list_propagation _ "1" "ABC" 1
      ⟨[⟨"2", "2025-01-02", "Producto B", "Bodega Sur", .OUT, 20,
        "Venta cliente X"⟩], 1, 1, 10⟩ (by decide) (by decide)).2 (by decide)⟩

/-- Counterexample to C3's "no write at all" clause: the forEach of
onMutate passes to setQueryData the key of a snapshotted list entry none of
whose items has the target id — the write happens (with an equal value). -/
theorem optimistic_list_write_on_unmatched_cex :
    optimisticListWrites ((onMutate (κ := Nat)
        ⟨[], [(0, some ⟨[⟨"2", "2025-01-02", "Producto B", "Bodega Sur", .OUT,
          20, "Venta cliente X"⟩], 1, 1, 10⟩)]⟩ "1" "ABC").2).previousLists =
      [0] ∧
    ([⟨"2", "2025-01-02", "Producto B", "Bodega Sur", MoveType.OUT, 20,
        "Venta cliente X"⟩] : List StockMove).all
      (fun it => decide (¬it.id = "1")) = true := by decide

/-- C1 (amended): for every cache whose detail entries are uniquely keyed
by the id of the move they hold and whose list keys are unique — true of
every cache the application builds — a failed patch's error handler
restores the detail entry and every list entry to their pre-mutation
snapshots exactly, so the cache after failure equals the pre-mutation
cache. -/
theorem patch_failure_restores_snapshots {κ : Type} [DecidableEq κ]
    (c : Cache κ) (id reference : String)
    (hwk : DetailWellKeyed c)
    (hndd : (c.detail.map Prod.fst).Nodup)
    (hndl : (c.lists.map Prod.fst).Nodup) :
    onError (onMutate c id reference).1 (onMutate c id reference).2 = c := by
  have hdetail :
      (onError (onMutate c id reference).1 (onMutate c id reference).2).detail =
        c.detail := by
    rw [onError_detail, onMutate_snd]
    show (match lookupA c.detail id with
      | some d => setA ((onMutate c id reference).1).detail d.id d
      | none => ((onMutate c id reference).1).detail) = c.detail
    cases hd : lookupA c.detail id with
    | none => simp [onMutate_fst_detail, hd]
    | some d =>
      have hid : d.id = id := hwk (id, d) (lookupA_mem hd)
      show setA ((onMutate c id reference).1).detail d.id d = c.detail
      have hm1 : ((onMutate c id reference).1).detail =
          setA c.detail id { d with reference := reference } := by
        rw [onMutate_fst_detail, hd]
      rw [hm1, hid, setA_setA, setA_eq_self hndd hd]
  have h1 : ((onMutate c id reference).1).lists.map Prod.fst =
      c.lists.map Prod.fst := by
    rw [onMutate_fst_lists]
    exact writeBack_map_fst _ _ _ (fun x hx => hx)
  have hsub : ∀ x ∈ c.lists.map Prod.fst,
      x ∈ ((onMutate c id reference).1).lists.map Prod.fst := by
    intro x hx
    rw [h1]
    exact hx
  have hlists :
      (onError (onMutate c id reference).1 (onMutate c id reference).2).lists =
        c.lists := by
    rw [onError_lists, onMutate_snd]
    apply assoc_ext
    · rw [writeBack_map_fst _ _ _ hsub]
      exact h1
    · rw [writeBack_map_fst _ _ _ hsub, h1]
      exact hndl
    · intro k
      rw [lookupA_writeBack (fun v => v) c.lists hndl, onMutate_fst_lists,
        lookupA_writeBack (optimisticList id reference) c.lists hndl]
      cases hv : lookupA c.lists k with
      | none => rfl
      | some o => cases o <;> rfl
  calc onError (onMutate c id reference).1 (onMutate c id reference).2
      = ⟨(onError (onMutate c id reference).1 (onMutate c id reference).2).detail,
        (onError (onMutate c id reference).1 (onMutate c id reference).2).lists⟩ :=
        rfl
    _ = ⟨c.detail, c.lists⟩ := by rw [hdetail, hlists]
    _ = c := rfl

/-- Witness for C1 at a well-keyed cache holding fixture move 1 in the
detail entry, one populated list entry and one list entry without data. -/
theorem patch_failure_restores_snapshots_witness :
    onError (onMutate (κ := Nat)
        ⟨[("1", ⟨"1", "2025-01-01", "Producto A", "Bodega Norte", .IN, 100,
          "Ingreso inicial"⟩)],
         [(0, some ⟨[⟨"1", "2025-01-01", "Producto A", "Bodega Norte", .IN,
            100, "Ingreso inicial"⟩], 1, 1, 10⟩), (1, none)]⟩ "1" "ABC").1
      (onMutate (κ := Nat)
        ⟨[("1", ⟨"1", "2025-01-01", "Producto A", "Bodega Norte", .IN, 100,
          "Ingreso inicial"⟩)],
         [(0, some ⟨[⟨"1", "2025-01-01", "Producto A", "Bodega Norte", .IN,
            100, "Ingreso inicial"⟩], 1, 1, 10⟩), (1, none)]⟩ "1" "ABC").2 =
      ⟨[("1", ⟨"1", "2025-01-01", "Producto A", "Bodega Norte", .IN, 100,
        "Ingreso inicial"⟩)],
       [(0, some ⟨[⟨"1", "2025-01-01", "Producto A", "Bodega Norte", .IN,
          100, "Ingreso inicial"⟩], 1, 1, 10⟩), (1, none)]⟩ :=
  patch_failure_restores_snapshots _ "1" "ABC" (by decide) (by decide)
    (by decide)

/-- Counterexample to C1 as stated over every cache state: with a detail
entry keyed "1" holding a move whose id field is "2" (a state no
application run produces, but one the claim's quantifier includes), the
error handler restores the snapshot under key "2" — the optimistic value
under key "1" survives and a spurious entry appears, so the cache does not
return to its pre-mutation state. -/
theorem patch_failure_wrong_key_cex :
    onError (onMutate (κ := Nat)
        ⟨[("1", ⟨"2", "2025-01-02", "Producto B", "Bodega Sur", .OUT, 20,
          "Venta cliente X"⟩)], []⟩ "1" "ABC").1
      (onMutate (κ := Nat)
        ⟨[("1", ⟨"2", "2025-01-02", "Producto B", "Bodega Sur", .OUT, 20,
          "Venta cliente X"⟩)], []⟩ "1" "ABC").2 ≠
      ⟨[("1", ⟨"2", "2025-01-02", "Producto B", "Bodega Sur", .OUT, 20,
        "Venta cliente X"⟩)], []⟩ := by decide

end RocaStockMoves
